import Mathlib

/-!
Verification of the event-analytics dashboard core
(`src/utils.py`, `src/app.py` forecaster section, `src/auth.py`,
`src/config_helpers.py`) against its specification.

The Python code is shallowly embedded: dicts become association lists in
insertion order, caught exceptions become `Option`, Python ints become `Int`,
and true division of ints becomes division in `ℚ`.
-/

namespace Dashboards

/-- JSON values as produced by a strict JSON parse of a spreadsheet cell
(plus native mapping values stored directly in a cell).  JSON numbers are
modelled as integers (together with booleans, which Python treats as ints);
fractional and non-finite floats are outside the modelled value domain.
Array elements are never inspected by the code, so arrays carry no payload. -/
inductive JVal where
  | jNull : JVal
  | jBool (b : Bool) : JVal
  | jInt (n : Int) : JVal
  | jStr (s : String) : JVal
  | jArr : JVal
  | jObj (kvs : List (String × JVal)) : JVal

/-- A Python dict decoded from JSON: an association list of string keys in
insertion order.  Python dicts have unique keys; the operations below are
nevertheless total on arbitrary lists. -/
abbrev JDict := List (String × JVal)

/-- A raw spreadsheet cell value as seen by `safe_json_loads`.  A string
cell is represented by the outcome Python's `json.loads` has on its
stripped text: `rStrEmpty` covers `strip()` giving one of "", "\x7b\x7d",
"[]" (treated as absent before parsing); `rStrValid v` a successful parse
to the value `v`; `rStrInvalid` a `JSONDecodeError`.  `rOther` covers every
other Python type (ints, lists, finite floats, ...), for which the code
falls through to its final `return None`. -/
inductive RawVal where
  | rNone : RawVal
  | rNaN : RawVal
  | rDict (d : JDict) : RawVal
  | rStrEmpty : RawVal
  | rStrValid (v : JVal) : RawVal
  | rStrInvalid : RawVal
  | rOther : RawVal

/-- `src/utils.py` `safe_json_loads`: `none` on exactly the code's
`return None` paths — None/NaN input, empty-ish string, parse failure, or
a JSON value that is not an object. -/
def safe_json_loads : RawVal → Option JDict
  | .rNone => none
  | .rNaN => none
  | .rDict d => some d
  | .rStrEmpty => none
  | .rStrValid (.jObj kvs) => some kvs
  | .rStrValid _ => none
  | .rStrInvalid => none
  | .rOther => none

/-- First-occurrence lookup in an association list: Python `result.get(key)`
and `key in result` (Python dicts have at most one occurrence per key). -/
def dlookup (k : String) : List (String × Int) → Option Int
  | [] => none
  | kv :: rest => if kv.1 = k then some kv.2 else dlookup k rest

/-- Python `key in result`. -/
def dmem (k : String) (l : List (String × Int)) : Bool :=
  (dlookup k l).isSome

/-- Python `result[key] = f(result[key])` on a present key: rewrite the
first occurrence in place; no-op when the key is absent. -/
def dset (k : String) (f : Int → Int) : List (String × Int) → List (String × Int)
  | [] => []
  | kv :: rest => if kv.1 = k then (k, f kv.2) :: rest else kv :: dset k f rest

/-- Python `combined[key] = v`: replace the first occurrence in place when
present, append when new. -/
def dinsert (k : String) (v : Int) : List (String × Int) → List (String × Int)
  | [] => [(k, v)]
  | kv :: rest => if kv.1 = k then (k, v) :: rest else kv :: dinsert k v rest

/-- The value added by `merge_json_dicts`:
`int(val) if isinstance(val, (int, float)) else 0`.  Python bools are ints
(True counts as 1).  The surrounding try/except can only fire for
non-finite floats, which are outside the modelled value domain, so the
coercion is total here. -/
def coerceMerge : JVal → Int
  | .jInt n => n
  | .jBool b => if b then 1 else 0
  | _ => 0

/-- One inner iteration of `merge_json_dicts`:
`if key not in result: result[key] = 0` followed by
`result[key] += coerceMerge val`. -/
def mergeStep (result : List (String × Int)) (kv : String × JVal) :
    List (String × Int) :=
  dset kv.1 (fun v => v + coerceMerge kv.2)
    (if dmem kv.1 result then result else result ++ [(kv.1, 0)])

/-- One outer iteration of `merge_json_dicts`: `if not d: continue` then
the inner loop over the dict's items. -/
def mergeCellStep (result : List (String × Int)) (od : Option JDict) :
    List (String × Int) :=
  match od with
  | none => result
  | some d => if d.isEmpty then result else d.foldl mergeStep result

/-- `src/utils.py` `merge_json_dicts`: fold the rows' optional dicts into
one accumulator, skipping None and empty dicts (`if not d: continue`). -/
def merge_json_dicts (dicts : List (Option JDict)) : List (String × Int) :=
  dicts.foldl mergeCellStep []

/-- ASCII whitespace, as stripped by Python's `str.strip` (the Unicode
whitespace it also strips does not occur in the data). -/
def isSpaceChar (c : Char) : Bool :=
  c = ' ' || c = '\t' || c = '\n' || c = '\r' || c = '\x0b' || c = '\x0c'

/-- Python `str.strip()`, on the character list of the string. -/
def pyStrip (s : String) : List Char :=
  ((s.toList.dropWhile isSpaceChar).reverse.dropWhile isSpaceChar).reverse

/-- ASCII-digit accumulation for Python's `int` applied to a string:
digits with single underscores allowed between digits.  The `lastDigit`
flag records whether the previous character was a digit. -/
def parseDigitsAux : List Char → Nat → Bool → Option Nat
  | [], acc, lastDigit => if lastDigit then some acc else none
  | c :: rest, acc, lastDigit =>
    if c.isDigit then parseDigitsAux rest (acc * 10 + (c.toNat - 48)) true
    else if c = '_' then
      if lastDigit then parseDigitsAux rest acc false else none
    else none

/-- Python's built-in `int` on a string: strip surrounding whitespace,
optional sign, ASCII digits with underscore separators; `none` models the
`ValueError` path. -/
def pyIntOfStr (s : String) : Option Int :=
  match pyStrip s with
  | '+' :: rest => (parseDigitsAux rest 0 false).map (fun n => (n : Int))
  | '-' :: rest => (parseDigitsAux rest 0 false).map (fun n => -(n : Int))
  | l => (parseDigitsAux l 0 false).map (fun n => (n : Int))

/-- The conversion attempted by `parse_daily_registrations`: Python
`int(count)`.  `none` models the caught TypeError/ValueError. -/
def coerceParse : JVal → Option Int
  | .jInt n => some n
  | .jBool b => some (if b then 1 else 0)
  | .jStr s => pyIntOfStr s
  | _ => none

/-- One inner iteration of `parse_daily_registrations`:
`combined[date_str] = combined.get(date_str, 0) + int(count)` with the
conversion failure caught and skipped. -/
def parseStep (combined : List (String × Int)) (kv : String × JVal) :
    List (String × Int) :=
  match coerceParse kv.2 with
  | none => combined
  | some n => dinsert kv.1 ((dlookup kv.1 combined).getD 0 + n) combined

/-- pandas `Series.dropna` filters missing markers out before iteration. -/
def isNa : RawVal → Bool
  | .rNone => true
  | .rNaN => true
  | _ => false

/-- One outer iteration of `parse_daily_registrations`: parse the cell,
`if not d: continue`, then the inner loop over the date/count items. -/
def parseCellStep (combined : List (String × Int)) (val : RawVal) :
    List (String × Int) :=
  match safe_json_loads val with
  | none => combined
  | some d => if d.isEmpty then combined else d.foldl parseStep combined

/-- `src/utils.py` `parse_daily_registrations`. -/
def parse_daily_registrations (series : List RawVal) : List (String × Int) :=
  (series.filter (fun v => !isNa v)).foldl parseCellStep []

/-- `src/utils.py` `normalize_chart_label`, restricted to string keys (JSON
object keys are always strings; the `None` branch also yields the
sentinel). -/
def normalize_chart_label (key : String) : String :=
  if pyStrip key = [] then "(Unknown)" else ⟨pyStrip key⟩

/-- The (label, count) pairs handed to the pie charts in `src/app.py`:
`names = [normalize_chart_label(k) for k in merged.keys()]` zipped with
`values = list(merged.values())`. -/
def chartEntries (merged : List (String × Int)) : List (String × Int) :=
  merged.map (fun kv => (normalize_chart_label kv.1, kv.2))

/-! ### Calendar dates

Dates are reduced to day numbers so that subtraction of normalized pandas
timestamps in days becomes subtraction of naturals. -/

def isLeapYear (y : Nat) : Bool :=
  (y % 4 == 0 && y % 100 != 0) || y % 400 == 0

def daysInMonth (y m : Nat) : Nat :=
  if m = 2 then (if isLeapYear y then 29 else 28)
  else if m = 4 ∨ m = 6 ∨ m = 9 ∨ m = 11 then 30
  else 31

def daysBeforeMonth (y m : Nat) : Nat :=
  (List.range (m - 1)).foldl (fun a i => a + daysInMonth y (i + 1)) 0

/-- Day number of a proleptic-Gregorian calendar date (day 0 = 1 Jan 1).
Differences of day numbers model pandas timestamp subtraction `.days` on
normalized (midnight) timestamps. -/
def toDayNumber (y m d : Nat) : Nat :=
  365 * (y - 1) + (y - 1) / 4 - (y - 1) / 100 + (y - 1) / 400
    + daysBeforeMonth y m + (d - 1)

/-- The pandas call `pd.to_datetime(value, errors="coerce", dayfirst=True)`
followed by `.normalize()`, as used on the sheet's registration dates,
modelled on the dashed day-first text form `DD-MM-YYYY` the sheet uses
(day first, then month, then 4-digit year, validated against the
calendar).  `none` models `NaT`. -/
def splitDash : List Char → List (List Char)
  | [] => [[]]
  | c :: rest =>
    let groups := splitDash rest
    if c = '-' then [] :: groups
    else
      match groups with
      | g :: gs => (c :: g) :: gs
      | [] => [[c]]

/-- Decimal value of a nonempty all-digit character group. -/
def digitsToNat? (l : List Char) : Option Nat :=
  if l.isEmpty then none
  else
    l.foldl
      (fun acc c =>
        match acc with
        | none => none
        | some a => if c.isDigit then some (a * 10 + (c.toNat - 48)) else none)
      (some 0)

def parseDayFirstDate (s : String) : Option Nat :=
  match splitDash (pyStrip s) with
  | [ds, ms, ys] =>
    match digitsToNat? ds, digitsToNat? ms, digitsToNat? ys with
    | some d, some m, some y =>
      if 1 ≤ d ∧ 1 ≤ m ∧ m ≤ 12 ∧ d ≤ daysInMonth y m ∧ 1 ≤ y ∧ ys.length = 4
      then some (toDayNumber y m d) else none
    | _, _, _ => none
  | _ => none

/-- Python's built-in `max` on two ints. -/
def pymax (a b : Int) : Int := if a ≤ b then b else a

/-- Python's built-in `max` on two day numbers. -/
def pymaxN (a b : Nat) : Nat := if a ≤ b then b else a

/-- Python's built-in `min` on two day numbers. -/
def pyminN (a b : Nat) : Nat := if a ≤ b then a else b

/-! ### Configuration -/

/-- A JSON value stored under `"registration_target"` in the event
dashboard config file. -/
inductive CfgVal where
  | cNone : CfgVal
  | cStr (s : String) : CfgVal
  | cInt (n : Int) : CfgVal
  | cOther : CfgVal

/-- `src/config_helpers.py` `get_event_config`, restricted to the
`registration_target` field it returns: missing or empty-string entries
become 0, strings go through `int()` with failures becoming 0, ints are
kept.  `cOther` covers entries whose `int()` raises TypeError. -/
def cfgRegistrationTarget : CfgVal → Int
  | .cNone => 0
  | .cStr s => if s = "" then 0 else (pyIntOfStr s).getD 0
  | .cInt n => n
  | .cOther => 0

/-! ### Pace forecaster (`src/app.py`, Registration Target section) -/

/-- Result of the explicit-window resolution in `src/app.py` (lines
591-608): the full-period daily average when the sheet window yields one,
the inclusive day count from the sheet, and the parsed registration end
date.  `end_dt` is kept even when the start date fails to parse, mirroring
that the code assigns `end_dt` before the joint validity check. -/
structure SheetWindow where
  average_daily : Option ℚ
  days_from_sheet : Option Int
  end_dt : Option Nat
deriving Repr, DecidableEq

/-- `src/app.py` lines 591-608.  `start_val`/`end_val` are `none` when the
column is missing or the cell fails `pd.notna`; `if reg_target` is Python
truthiness on the configured int target. -/
def sheetWindow (reg_target : Int) (start_val end_val : Option String) :
    SheetWindow :=
  if reg_target = 0 then ⟨none, none, none⟩ else
  match start_val, end_val with
  | some sv, some ev =>
    match parseDayFirstDate sv, parseDayFirstDate ev with
    | some s, some e =>
      let days : Int := pymax 1 ((e : Int) - (s : Int) + 1)
      ⟨if 1 < days then some ((reg_target : ℚ) / (days : ℚ)) else none,
       some days, some e⟩
    | _, _ => ⟨none, none, parseDayFirstDate ev⟩
  | _, _ => ⟨none, none, none⟩

/-- `src/app.py` lines 609-620: chart-span fallback for the full-period
average.  `chartDates` holds the day numbers of the chart's date keys (the
code takes `min`/`max` over the ISO-ordered date strings and re-parses
them).  Returns the updated `average_daily` together with `span_days`. -/
def spanAverage (reg_target : Int) (w : SheetWindow) (chartDates : List Nat) :
    Option ℚ × Option Int :=
  match chartDates with
  | [] => (w.average_daily, none)
  | d :: ds =>
    if reg_target = 0 then (w.average_daily, none) else
    let mn := ds.foldl pyminN d
    let mx := ds.foldl pymaxN d
    let span : Int := pymax 1 ((mx : Int) - (mn : Int) + 1)
    let overwrite :=
      w.average_daily.isNone ||
        (match w.days_from_sheet with
         | some n => decide (n ≤ 1)
         | none => false)
    if overwrite then (some ((reg_target : ℚ) / (span : ℚ)), some span)
    else (w.average_daily, some span)

/-- One chart point: the parsed, normalized date of a chart date string
(`none` models `pd.NaT` for an unparseable string) with its count. -/
abbrev ChartPoint := Option Nat × Int

/-- The in-range mask of `src/app.py` lines 630-636: keep points whose
date parses and lies on or before the end date. -/
def inRangeFilter (e : Nat) (entries : List ChartPoint) : List ChartPoint :=
  entries.filter (fun p =>
    match p.1 with
    | some d => decide (d ≤ e)
    | none => false)

/-- `src/app.py` lines 621-654: required daily average.  Result is
`(required_daily_avg, total_so_far_used, days_remaining_used)`, or `none`
whenever the code leaves `required_daily_avg` as `None`. -/
def requiredPace (reg_target : Int) (entries : List ChartPoint)
    (end_dt : Option Nat) (average_daily : Option ℚ) :
    Option (ℚ × Int × Int) :=
  if reg_target = 0 then none else
  match entries, end_dt with
  | [], _ => none
  | _ :: _, none => none
  | _ :: _, some e =>
    let inR := inRangeFilter e entries
    if inR.isEmpty then none else
    let total := (inR.map Prod.snd).sum
    let last := (inR.filterMap Prod.fst).foldl pymaxN 0
    let days_remaining : Int := (e : Int) - (last : Int)
    if 0 < days_remaining then
      some (((pymax 0 (reg_target - total)) : ℚ) / (days_remaining : ℚ),
            total, days_remaining)
    else
      match average_daily with
      | some a => some (a, total, 0)
      | none => none

/-! ### Role-based access (`src/auth.py`) -/

/-- `src/auth.py` `ROLE_PERMISSIONS` (dict lookup with `.get(role, set())`
modelled as a total function with default empty). -/
def ROLE_PERMISSIONS (role : String) : List String :=
  if role = "admin" then ["view_dashboard", "edit_sheet", "connect"]
  else if role = "viewer" then ["view_dashboard"]
  else []

/-- `src/auth.py` `has_permission`. -/
def has_permission (role perm : String) : Bool :=
  (ROLE_PERMISSIONS role).contains perm

/-- `src/auth.py` `can_edit_sheet`. -/
def can_edit_sheet (role : String) : Bool :=
  has_permission role "edit_sheet" || has_permission role "connect"

/-! ### Derived per-key accounting used in the statements below -/

/-- Python `isinstance(val, (int, float))` on the modelled values (Python
bools are ints). -/
def isNumericJV : JVal → Bool
  | .jInt _ => true
  | .jBool _ => true
  | _ => false

/-- Total contribution of one parsed dict to key `k` under the coercion of
`merge_json_dicts`. -/
def dictTotalM (k : String) (d : JDict) : Int :=
  ((d.filter (fun kv => kv.1 == k)).map (fun kv => coerceMerge kv.2)).sum

/-- Whether one optional dict mentions key `k` at all. -/
def cellHasKeyM (k : String) : Option JDict → Bool
  | none => false
  | some d => d.any (fun kv => kv.1 == k)

/-- Total contribution of one optional dict to key `k`. -/
def cellTotalM (k : String) : Option JDict → Int
  | none => 0
  | some d => dictTotalM k d

/-- Total contribution of one parsed dict to date key `k` under the
conversion of `parse_daily_registrations` (failed conversions add 0 and,
on their own, leave the key absent). -/
def dictTotalP (k : String) (d : JDict) : Int :=
  ((d.filter (fun kv => kv.1 == k)).map (fun kv => (coerceParse kv.2).getD 0)).sum

/-- Whether one parsed dict creates date key `k`: some occurrence of `k`
whose value survives `int()`. -/
def dictHasKeyP (k : String) (d : JDict) : Bool :=
  d.any (fun kv => kv.1 == k && (coerceParse kv.2).isSome)

/-- Whether one raw cell creates date key `k`. -/
def cellHasKeyP (k : String) (v : RawVal) : Bool :=
  match safe_json_loads v with
  | none => false
  | some d => dictHasKeyP k d

/-- Total contribution of one raw cell to date key `k`. -/
def cellTotalP (k : String) (v : RawVal) : Int :=
  match safe_json_loads v with
  | none => 0
  | some d => dictTotalP k d

/-! ## Association-list lemmas -/

theorem dlookup_append_some {k : String} {l₁ : List (String × Int)} {v : Int}
    (h : dlookup k l₁ = some v) (l₂ : List (String × Int)) :
    dlookup k (l₁ ++ l₂) = some v := by
  induction l₁ with
  | nil => simp [dlookup] at h
  | cons kv rest ih =>
    rw [dlookup] at h
    rw [List.cons_append, dlookup]
    split at h <;> split <;> simp_all

theorem dlookup_append_none {k : String} {l₁ : List (String × Int)}
    (h : dlookup k l₁ = none) (l₂ : List (String × Int)) :
    dlookup k (l₁ ++ l₂) = dlookup k l₂ := by
  induction l₁ with
  | nil => simp
  | cons kv rest ih =>
    rw [dlookup] at h
    rw [List.cons_append, dlookup]
    split at h <;> split <;> simp_all

theorem dlookup_dset (k k' : String) (f : Int → Int) (l : List (String × Int)) :
    dlookup k (dset k' f l) = if k' = k then (dlookup k l).map f else dlookup k l := by
  induction l with
  | nil => simp [dset, dlookup]
  | cons kv rest ih =>
    by_cases h1 : kv.1 = k'
    · by_cases h3 : kv.1 = k
      · have h2 : k' = k := h1.symm.trans h3
        subst h2
        simp [dset, dlookup, h1, h3]
      · have h2 : ¬ k' = k := fun h => h3 (h1.trans h)
        simp [dset, dlookup, h1, h3, h2]
    · by_cases h3 : kv.1 = k
      · have h2 : ¬ k' = k := fun h => h1 (h3.trans h.symm)
        have h4 : ¬ k = k' := fun h => h2 h.symm
        simp [dset, dlookup, h1, h3, h2, h4]
      · simp [dset, dlookup, h1, h3, ih]

theorem dlookup_dinsert (k k' : String) (v : Int) (l : List (String × Int)) :
    dlookup k (dinsert k' v l) = if k' = k then some v else dlookup k l := by
  induction l with
  | nil => simp [dinsert, dlookup]
  | cons kv rest ih =>
    by_cases h1 : kv.1 = k'
    · by_cases h3 : kv.1 = k
      · have h2 : k' = k := h1.symm.trans h3
        subst h2
        simp [dinsert, dlookup, h1, h3]
      · have h2 : ¬ k' = k := fun h => h3 (h1.trans h)
        simp [dinsert, dlookup, h1, h3, h2]
    · by_cases h3 : kv.1 = k
      · have h2 : ¬ k' = k := fun h => h1 (h3.trans h.symm)
        have h4 : ¬ k = k' := fun h => h2 h.symm
        simp [dinsert, dlookup, h1, h3, h2, h4]
      · simp [dinsert, dlookup, h1, h3, ih]

theorem dlookup_mergeStep (k : String) (l : List (String × Int)) (kv : String × JVal) :
    dlookup k (mergeStep l kv) =
      if kv.1 = k then some ((dlookup k l).getD 0 + coerceMerge kv.2)
      else dlookup k l := by
  unfold mergeStep
  by_cases hm : dmem kv.1 l
  · rw [if_pos hm, dlookup_dset]
    by_cases hk : kv.1 = k
    · subst hk
      unfold dmem at hm
      cases h : dlookup kv.1 l with
      | none => rw [h] at hm; simp at hm
      | some v => simp [h]
    · simp [hk]
  · rw [if_neg hm, dlookup_dset]
    unfold dmem at hm
    have hnone : dlookup kv.1 l = none := by
      cases h : dlookup kv.1 l
      · rfl
      · rw [h] at hm; simp at hm
    by_cases hk : kv.1 = k
    · subst hk
      rw [if_pos rfl, dlookup_append_none hnone, hnone]
      simp [dlookup]
    · rw [if_neg hk, if_neg hk]
      by_cases h2 : dlookup k l = none
      · rw [dlookup_append_none h2, h2]
        simp [dlookup, hk]
      · cases h3 : dlookup k l with
        | none => exact absurd h3 h2
        | some v => rw [dlookup_append_some h3]

/-! ## Key-by-key characterization of `merge_json_dicts` -/

theorem beq_false_of_any_false {k : String} {d : JDict}
    (h : d.any (fun kv => kv.1 == k) = false) :
    ∀ kv ∈ d, (kv.1 == k) = false := by
  intro kv hkv
  cases hb : (kv.1 == k) with
  | false => rfl
  | true =>
    have : d.any (fun kv => kv.1 == k) = true := List.any_eq_true.mpr ⟨kv, hkv, hb⟩
    rw [this] at h
    cases h

theorem dictTotalM_cons_hit {k : String} {kv : String × JVal} {rest : JDict}
    (hb : (kv.1 == k) = true) :
    dictTotalM k (kv :: rest) = coerceMerge kv.2 + dictTotalM k rest := by
  simp [dictTotalM, List.filter_cons, hb]

theorem dictTotalM_cons_miss {k : String} {kv : String × JVal} {rest : JDict}
    (hb : (kv.1 == k) = false) :
    dictTotalM k (kv :: rest) = dictTotalM k rest := by
  simp [dictTotalM, List.filter_cons, hb]

theorem dictTotalM_of_not_any {k : String} {d : JDict}
    (h : d.any (fun kv => kv.1 == k) = false) : dictTotalM k d = 0 := by
  unfold dictTotalM
  have hnil : d.filter (fun kv => kv.1 == k) = [] :=
    List.filter_eq_nil_iff.mpr (by
      intro kv hkv
      rw [beq_false_of_any_false h kv hkv]
      exact Bool.false_ne_true)
  rw [hnil]
  rfl

theorem cellTotalM_of_not_hasKey {k : String} {od : Option JDict}
    (h : cellHasKeyM k od = false) : cellTotalM k od = 0 := by
  cases od with
  | none => rfl
  | some d => exact dictTotalM_of_not_any h

theorem sum_cellTotalM_of_not_any {k : String} {dicts : List (Option JDict)}
    (h : dicts.any (cellHasKeyM k) = false) :
    (dicts.map (cellTotalM k)).sum = 0 := by
  induction dicts with
  | nil => rfl
  | cons od rest ih =>
    rw [List.any_cons] at h
    rcases Bool.or_eq_false_iff.mp h with ⟨h1, h2⟩
    rw [List.map_cons, List.sum_cons, cellTotalM_of_not_hasKey h1, ih h2, add_zero]

theorem dlookup_foldl_mergeStep (k : String) (d : JDict) (l : List (String × Int)) :
    dlookup k (d.foldl mergeStep l) =
      if d.any (fun kv => kv.1 == k) then
        some ((dlookup k l).getD 0 + dictTotalM k d)
      else dlookup k l := by
  induction d generalizing l with
  | nil => simp [dictTotalM]
  | cons kv rest ih =>
    rw [List.foldl_cons, ih, dlookup_mergeStep]
    by_cases hk : kv.1 = k
    · have hb : (kv.1 == k) = true := by simp [hk]
      rw [if_pos hk, List.any_cons, hb, Bool.true_or, if_pos rfl,
        dictTotalM_cons_hit hb]
      cases hr : rest.any (fun kv => kv.1 == k) with
      | true => simp [add_assoc]
      | false => simp [dictTotalM_of_not_any hr]
    · have hb : (kv.1 == k) = false := by simp [hk]
      rw [if_neg hk, List.any_cons, hb, Bool.false_or, dictTotalM_cons_miss hb]

theorem mergeCellStep_none (l : List (String × Int)) : mergeCellStep l none = l := rfl

theorem mergeCellStep_some_nil (l : List (String × Int)) :
    mergeCellStep l (some []) = l := rfl

theorem mergeCellStep_some_cons (l : List (String × Int)) (kv0 : String × JVal)
    (drest : JDict) :
    mergeCellStep l (some (kv0 :: drest)) = (kv0 :: drest).foldl mergeStep l := rfl

theorem dlookup_foldl_mergeCells (k : String) (dicts : List (Option JDict))
    (l : List (String × Int)) :
    dlookup k (dicts.foldl mergeCellStep l) =
      if dicts.any (cellHasKeyM k) then
        some ((dlookup k l).getD 0 + (dicts.map (cellTotalM k)).sum)
      else dlookup k l := by
  induction dicts generalizing l with
  | nil => simp
  | cons od rest ih =>
    rw [List.foldl_cons, ih]
    cases od with
    | none =>
      simp [mergeCellStep_none, cellHasKeyM, cellTotalM]
    | some d =>
      cases d with
      | nil =>
        simp [mergeCellStep_some_nil, cellHasKeyM, cellTotalM, dictTotalM]
      | cons kv0 drest =>
        rw [mergeCellStep_some_cons, dlookup_foldl_mergeStep]
        have hout : ((some (kv0 :: drest) : Option JDict) :: rest).any (cellHasKeyM k)
            = ((kv0 :: drest).any (fun kv => kv.1 == k) || rest.any (cellHasKeyM k)) := rfl
        rw [hout, List.map_cons, List.sum_cons,
          show cellTotalM k (some (kv0 :: drest)) = dictTotalM k (kv0 :: drest) from rfl]
        cases hd : (kv0 :: drest).any (fun kv => kv.1 == k) with
        | true =>
          cases hr : rest.any (cellHasKeyM k) with
          | true => simp [add_assoc]
          | false => simp [sum_cellTotalM_of_not_any hr]
        | false => simp [dictTotalM_of_not_any hd]

/-- What `merge_json_dicts` holds at key `k`: present iff some input dict
mentions `k`, with value the sum of the coerced contributions. -/
theorem dlookup_merge_json_dicts (k : String) (dicts : List (Option JDict)) :
    dlookup k (merge_json_dicts dicts) =
      if dicts.any (cellHasKeyM k) then some ((dicts.map (cellTotalM k)).sum)
      else none := by
  rw [merge_json_dicts, dlookup_foldl_mergeCells]
  simp [dlookup]

/-! ## Key-by-key characterization of `parse_daily_registrations` -/

theorem dictTotalP_cons_hit {k : String} {kv : String × JVal} {rest : JDict}
    (hb : (kv.1 == k) = true) :
    dictTotalP k (kv :: rest) = (coerceParse kv.2).getD 0 + dictTotalP k rest := by
  simp [dictTotalP, List.filter_cons, hb]

theorem dictTotalP_cons_miss {k : String} {kv : String × JVal} {rest : JDict}
    (hb : (kv.1 == k) = false) :
    dictTotalP k (kv :: rest) = dictTotalP k rest := by
  simp [dictTotalP, List.filter_cons, hb]

theorem dictTotalP_of_not_hasKey {k : String} :
    ∀ {d : JDict}, dictHasKeyP k d = false → dictTotalP k d = 0 := by
  intro d
  induction d with
  | nil => intro _; rfl
  | cons kv rest ih =>
    intro h
    rw [dictHasKeyP, List.any_cons] at h
    rcases Bool.or_eq_false_iff.mp h with ⟨h1, h2⟩
    have h2' : dictHasKeyP k rest = false := h2
    cases hb : (kv.1 == k) with
    | false => rw [dictTotalP_cons_miss hb]; exact ih h2'
    | true =>
      rw [hb, Bool.true_and] at h1
      have hnone : coerceParse kv.2 = none := by
        cases hcp : coerceParse kv.2 with
        | none => rfl
        | some n => rw [hcp] at h1; cases h1
      rw [dictTotalP_cons_hit hb, hnone, ih h2']
      rfl

theorem sum_cellTotalP_of_not_any {k : String} {cells : List RawVal}
    (h : cells.any (cellHasKeyP k) = false) :
    (cells.map (cellTotalP k)).sum = 0 := by
  induction cells with
  | nil => rfl
  | cons v rest ih =>
    rw [List.any_cons] at h
    rcases Bool.or_eq_false_iff.mp h with ⟨h1, h2⟩
    have hz : cellTotalP k v = 0 := by
      rw [cellTotalP]
      cases hs : safe_json_loads v with
      | none => rfl
      | some d =>
        have : dictHasKeyP k d = false := by
          rw [cellHasKeyP, hs] at h1; exact h1
        exact dictTotalP_of_not_hasKey this
    rw [List.map_cons, List.sum_cons, hz, ih h2, add_zero]

theorem dlookup_parseStep (k : String) (l : List (String × Int)) (kv : String × JVal) :
    dlookup k (parseStep l kv) =
      match coerceParse kv.2 with
      | none => dlookup k l
      | some n =>
        if kv.1 = k then some ((dlookup k l).getD 0 + n) else dlookup k l := by
  unfold parseStep
  cases h : coerceParse kv.2 with
  | none => rfl
  | some n =>
    by_cases hk : kv.1 = k
    · subst hk; simp [dlookup_dinsert]
    · simp [dlookup_dinsert, hk]

theorem dlookup_foldl_parseStep (k : String) (d : JDict) (l : List (String × Int)) :
    dlookup k (d.foldl parseStep l) =
      if dictHasKeyP k d then some ((dlookup k l).getD 0 + dictTotalP k d)
      else dlookup k l := by
  induction d generalizing l with
  | nil => simp [dictHasKeyP, dictTotalP]
  | cons kv rest ih =>
    rw [List.foldl_cons, ih]
    have hcons : dictHasKeyP k (kv :: rest)
        = ((kv.1 == k && (coerceParse kv.2).isSome) || dictHasKeyP k rest) := rfl
    rw [hcons]
    cases hcp : coerceParse kv.2 with
    | none =>
      have hps : parseStep l kv = l := by simp [parseStep, hcp]
      have htot : dictTotalP k (kv :: rest) = dictTotalP k rest := by
        cases hb : (kv.1 == k) with
        | true => rw [dictTotalP_cons_hit hb, hcp]; simp
        | false => exact dictTotalP_cons_miss hb
      rw [hps, htot]
      simp
    | some n =>
      have hps : dlookup k (parseStep l kv)
          = if kv.1 = k then some ((dlookup k l).getD 0 + n) else dlookup k l := by
        rw [dlookup_parseStep, hcp]
      by_cases hk : kv.1 = k
      · have hb : (kv.1 == k) = true := by simp [hk]
        rw [hps, if_pos hk, dictTotalP_cons_hit hb, hcp, hb]
        cases hdr : dictHasKeyP k rest with
        | true => simp [add_assoc]
        | false => simp [dictTotalP_of_not_hasKey hdr]
      · have hb : (kv.1 == k) = false := by simp [hk]
        rw [hps, if_neg hk, dictTotalP_cons_miss hb, hb]
        simp

theorem parseCellStep_eq (l : List (String × Int)) (v : RawVal) :
    parseCellStep l v =
      match safe_json_loads v with
      | none => l
      | some d => if d.isEmpty then l else d.foldl parseStep l := rfl

theorem dlookup_foldl_parseCells (k : String) (cells : List RawVal)
    (l : List (String × Int)) :
    dlookup k (cells.foldl parseCellStep l) =
      if cells.any (cellHasKeyP k) then
        some ((dlookup k l).getD 0 + (cells.map (cellTotalP k)).sum)
      else dlookup k l := by
  induction cells generalizing l with
  | nil => simp
  | cons v rest ih =>
    rw [List.foldl_cons, ih]
    have hany : ((v :: rest).any (cellHasKeyP k))
        = (cellHasKeyP k v || rest.any (cellHasKeyP k)) := rfl
    rw [hany, List.map_cons, List.sum_cons]
    cases hs : safe_json_loads v with
    | none =>
      have hstep : parseCellStep l v = l := by rw [parseCellStep_eq, hs]
      have hhk : cellHasKeyP k v = false := by rw [cellHasKeyP, hs]
      have hct : cellTotalP k v = 0 := by rw [cellTotalP, hs]
      rw [hstep, hhk, hct, Bool.false_or]
      simp
    | some d =>
      have hhk : cellHasKeyP k v = dictHasKeyP k d := by rw [cellHasKeyP, hs]
      have hct : cellTotalP k v = dictTotalP k d := by rw [cellTotalP, hs]
      rw [hhk, hct]
      cases d with
      | nil =>
        have hstep : parseCellStep l v = l := by rw [parseCellStep_eq, hs]; rfl
        rw [hstep]
        simp [dictHasKeyP, dictTotalP]
      | cons kv0 drest =>
        have hstep : parseCellStep l v = (kv0 :: drest).foldl parseStep l := by
          rw [parseCellStep_eq, hs]; rfl
        rw [hstep, dlookup_foldl_parseStep]
        cases hd : dictHasKeyP k (kv0 :: drest) with
        | true =>
          cases hr : rest.any (cellHasKeyP k) with
          | true => simp [add_assoc]
          | false => simp [sum_cellTotalP_of_not_any hr]
        | false => simp [dictTotalP_of_not_hasKey hd]

theorem safe_json_loads_of_isNa {v : RawVal} (h : isNa v = true) :
    safe_json_loads v = none := by
  cases v <;> first | rfl | simp [isNa] at h

/-- Dropping the NaN markers changes key presence nowhere. -/
theorem filter_na_any (k : String) (series : List RawVal) :
    ((series.filter (fun v => !isNa v)).any (cellHasKeyP k))
      = series.any (cellHasKeyP k) := by
  induction series with
  | nil => rfl
  | cons v rest ih =>
    rw [List.filter_cons]
    cases hna : isNa v with
    | true =>
      have hhk : cellHasKeyP k v = false := by
        rw [cellHasKeyP, safe_json_loads_of_isNa hna]
      simp [hna, hhk, ih]
    | false => simp [hna, ih]

/-- Dropping the NaN markers changes no key total. -/
theorem filter_na_sum (k : String) (series : List RawVal) :
    (((series.filter (fun v => !isNa v)).map (cellTotalP k)).sum)
      = (series.map (cellTotalP k)).sum := by
  induction series with
  | nil => rfl
  | cons v rest ih =>
    rw [List.filter_cons]
    cases hna : isNa v with
    | true =>
      have hct : cellTotalP k v = 0 := by
        rw [cellTotalP, safe_json_loads_of_isNa hna]
      simp [hna, hct, ih]
    | false => simp [hna, ih]

/-- What `parse_daily_registrations` holds at date key `k`: present iff
some cell parses to a dict with an `int()`-convertible value at `k`, with
value the sum of the converted contributions. -/
theorem dlookup_parse_daily (k : String) (series : List RawVal) :
    dlookup k (parse_daily_registrations series) =
      if series.any (cellHasKeyP k) then some ((series.map (cellTotalP k)).sum)
      else none := by
  rw [parse_daily_registrations, dlookup_foldl_parseCells, filter_na_any,
    filter_na_sum]
  simp [dlookup]

/-! ## Equality of the two merge pipelines on integer-valued dicts -/

theorem dinsert_of_not_mem {k : String} {l : List (String × Int)}
    (h : dlookup k l = none) (v : Int) : dinsert k v l = l ++ [(k, v)] := by
  induction l with
  | nil => rfl
  | cons kv rest ih =>
    rw [dlookup] at h
    by_cases hk : kv.1 = k
    · rw [if_pos hk] at h; cases h
    · rw [if_neg hk] at h
      rw [dinsert, if_neg hk, ih h, List.cons_append]

theorem dset_eq_dinsert {k : String} {l : List (String × Int)} {v : Int}
    (h : dlookup k l = some v) (f : Int → Int) :
    dset k f l = dinsert k (f v) l := by
  induction l with
  | nil => cases h
  | cons kv rest ih =>
    rw [dlookup] at h
    by_cases hk : kv.1 = k
    · rw [if_pos hk] at h
      injection h with h
      subst h
      rw [dset, if_pos hk, dinsert, if_pos hk]
    · rw [if_neg hk] at h
      rw [dset, if_neg hk, dinsert, if_neg hk, ih h]

theorem dset_append_not_mem {k : String} {l : List (String × Int)}
    (h : dlookup k l = none) (f : Int → Int) (a : Int) :
    dset k f (l ++ [(k, a)]) = l ++ [(k, f a)] := by
  induction l with
  | nil => simp [dset]
  | cons kv rest ih =>
    rw [dlookup] at h
    by_cases hk : kv.1 = k
    · rw [if_pos hk] at h; cases h
    · rw [if_neg hk] at h
      rw [List.cons_append, dset, if_neg hk, ih h, List.cons_append]

/-- On an integer value the two inner loop bodies act identically. -/
theorem mergeStep_eq_parseStep_int (l : List (String × Int)) (k : String) (n : Int) :
    mergeStep l (k, .jInt n) = parseStep l (k, .jInt n) := by
  rw [mergeStep, parseStep]
  show dset k (fun v => v + n) (if dmem k l then l else l ++ [(k, 0)])
    = dinsert k ((dlookup k l).getD 0 + n) l
  cases hm : dlookup k l with
  | none =>
    have hdm : dmem k l = false := by rw [dmem, hm]; rfl
    rw [hdm]
    show dset k (fun v => v + n) (l ++ [(k, 0)]) = _
    rw [dset_append_not_mem hm, dinsert_of_not_mem hm]
    rfl
  | some v =>
    have hdm : dmem k l = true := by rw [dmem, hm]; rfl
    rw [hdm]
    show dset k (fun v => v + n) l = _
    rw [dset_eq_dinsert hm]
    rfl

/-- On an integer-valued dict the two inner loops produce the same list. -/
theorem foldl_mergeStep_eq_parseStep (d : JDict) (l : List (String × Int))
    (h : ∀ kv ∈ d, ∃ n : Int, kv.2 = .jInt n) :
    d.foldl mergeStep l = d.foldl parseStep l := by
  induction d generalizing l with
  | nil => rfl
  | cons kv rest ih =>
    obtain ⟨n, hn⟩ := h kv (List.mem_cons_self kv rest)
    rw [List.foldl_cons, List.foldl_cons]
    have hkv : kv = (kv.1, JVal.jInt n) := by
      cases kv
      simp only at hn
      rw [hn]
    rw [hkv, mergeStep_eq_parseStep_int]
    exact ih _ (fun kv2 h2 => h kv2 (List.mem_cons_of_mem kv h2))

/-- On integer-valued cells the two outer loops produce the same list. -/
theorem foldl_mergeCellStep_eq_parseCellStep (series : List RawVal)
    (acc : List (String × Int))
    (h : ∀ v ∈ series, ∀ d, safe_json_loads v = some d →
      ∀ kv ∈ d, ∃ n : Int, kv.2 = .jInt n) :
    (series.filter (fun v => !isNa v)).foldl parseCellStep acc
      = (series.map safe_json_loads).foldl mergeCellStep acc := by
  induction series generalizing acc with
  | nil => rfl
  | cons v rest ih =>
    have hrest := fun v2 hv2 => h v2 (List.mem_cons_of_mem v hv2)
    rw [List.filter_cons, List.map_cons, List.foldl_cons]
    cases hna : isNa v with
    | true =>
      rw [safe_json_loads_of_isNa hna, mergeCellStep_none]
      simp only [hna, Bool.not_true, if_neg]
      exact ih acc hrest
    | false =>
      simp only [hna, Bool.not_false, if_pos, List.foldl_cons]
      have hstep : parseCellStep acc v = mergeCellStep acc (safe_json_loads v) := by
        cases hs : safe_json_loads v with
        | none => rw [parseCellStep_eq, hs, mergeCellStep_none]
        | some d =>
          cases d with
          | nil =>
            rw [mergeCellStep_some_nil, parseCellStep_eq, hs]
            rfl
          | cons kv0 drest =>
            rw [mergeCellStep_some_cons]
            have hp : parseCellStep acc v = (kv0 :: drest).foldl parseStep acc := by
              rw [parseCellStep_eq, hs]
              rfl
            rw [hp]
            exact (foldl_mergeStep_eq_parseStep _ acc
              (h v (List.mem_cons_self v rest) _ hs)).symm
      rw [hstep]
      exact ih _ hrest

theorem any_eq_of_perm {α : Type} {l1 l2 : List α} (h : l1.Perm l2)
    (p : α → Bool) : l1.any p = l2.any p := by
  cases h2 : l2.any p with
  | true =>
    rw [List.any_eq_true] at h2 ⊢
    obtain ⟨x, hx, hpx⟩ := h2
    exact ⟨x, h.mem_iff.mpr hx, hpx⟩
  | false =>
    rw [List.any_eq_false] at h2 ⊢
    intro x hx
    exact h2 x (h.mem_iff.mp hx)

theorem sheetWindow_zero (sv ev : Option String) (target : Int)
    (ht : target = 0) : sheetWindow target sv ev = ⟨none, none, none⟩ := by
  rw [sheetWindow.eq_def, if_pos ht]

theorem sheetWindow_none_start (ev : Option String) (target : Int)
    (ht : ¬ target = 0) : sheetWindow target none ev = ⟨none, none, none⟩ := by
  rw [sheetWindow.eq_def, if_neg ht]

theorem sheetWindow_none_end (sv0 : String) (target : Int)
    (ht : ¬ target = 0) :
    sheetWindow target (some sv0) none = ⟨none, none, none⟩ := by
  rw [sheetWindow.eq_def, if_neg ht]

theorem sheetWindow_some_some (target : Int) (sv0 ev0 : String)
    (ht : ¬ target = 0) :
    sheetWindow target (some sv0) (some ev0) =
      match parseDayFirstDate sv0, parseDayFirstDate ev0 with
      | some s, some e =>
        ⟨if 1 < pymax 1 ((e : Int) - (s : Int) + 1) then
           some ((target : ℚ) / ((pymax 1 ((e : Int) - (s : Int) + 1) : Int) : ℚ))
         else none,
         some (pymax 1 ((e : Int) - (s : Int) + 1)), some e⟩
      | _, _ => ⟨none, none, parseDayFirstDate ev0⟩ := by
  rw [sheetWindow.eq_def, if_neg ht]

/-- The explicit-window average is tied to the day count: none without a
day count, and set exactly when the sheet window spans more than one day. -/
theorem sheetWindow_avg_inv (target : Int) (sv ev : Option String) :
    (sheetWindow target sv ev).average_daily =
      match (sheetWindow target sv ev).days_from_sheet with
      | none => none
      | some n => if 1 < n then some ((target : ℚ) / ((n : Int) : ℚ)) else none := by
  by_cases ht : target = 0
  · rw [sheetWindow_zero sv ev target ht]
  · cases sv with
    | none => rw [sheetWindow_none_start ev target ht]
    | some sv0 =>
      cases ev with
      | none => rw [sheetWindow_none_end sv0 target ht]
      | some ev0 =>
        rw [sheetWindow_some_some target sv0 ev0 ht]
        cases hs : parseDayFirstDate sv0 with
        | none => rfl
        | some s0 =>
          cases he : parseDayFirstDate ev0 with
          | none => rfl
          | some e0 => rfl

theorem spanAverage_cons (target : Int) (w : SheetWindow) (d : Nat)
    (ds : List Nat) (ht : ¬ target = 0) :
    spanAverage target w (d :: ds) =
      (if (w.average_daily.isNone ||
            (match w.days_from_sheet with
             | some n => decide (n ≤ 1)
             | none => false)) = true
       then (some ((target : ℚ) /
               ((pymax 1 (((ds.foldl pymaxN d : Nat) : Int)
                  - ((ds.foldl pyminN d : Nat) : Int) + 1) : Int) : ℚ)),
             some (pymax 1 (((ds.foldl pymaxN d : Nat) : Int)
                  - ((ds.foldl pyminN d : Nat) : Int) + 1)))
       else (w.average_daily,
             some (pymax 1 (((ds.foldl pymaxN d : Nat) : Int)
                  - ((ds.foldl pyminN d : Nat) : Int) + 1)))) := by
  rw [spanAverage.eq_def]
  simp only [if_neg ht]

theorem allNonneg_dset {l : List (String × Int)} (hl : ∀ kv ∈ l, 0 ≤ kv.2)
    {f : Int → Int} (hf : ∀ v, 0 ≤ v → 0 ≤ f v) (k : String) :
    ∀ kv ∈ dset k f l, 0 ≤ kv.2 := by
  induction l with
  | nil => intro kv h; cases h
  | cons kv0 rest ih =>
    intro kv hkv
    rw [dset] at hkv
    by_cases hk : kv0.1 = k
    · rw [if_pos hk] at hkv
      rw [List.mem_cons] at hkv
      rcases hkv with rfl | hkv
      · exact hf _ (hl kv0 (List.mem_cons_self kv0 rest))
      · exact hl kv (List.mem_cons_of_mem kv0 hkv)
    · rw [if_neg hk] at hkv
      rw [List.mem_cons] at hkv
      rcases hkv with rfl | hkv
      · exact hl kv (List.mem_cons_self kv rest)
      · exact ih (fun kv2 h2 => hl kv2 (List.mem_cons_of_mem kv0 h2)) kv hkv

theorem allNonneg_mergeStep {l : List (String × Int)} (hl : ∀ kv ∈ l, 0 ≤ kv.2)
    (kv : String × JVal) (hv : 0 ≤ coerceMerge kv.2) :
    ∀ kv2 ∈ mergeStep l kv, 0 ≤ kv2.2 := by
  rw [mergeStep]
  apply allNonneg_dset
  · intro kv2 hkv2
    by_cases hm : dmem kv.1 l
    · rw [if_pos hm] at hkv2
      exact hl kv2 hkv2
    · rw [if_neg hm] at hkv2
      rw [List.mem_append] at hkv2
      rcases hkv2 with h2 | h2
      · exact hl kv2 h2
      · rw [List.mem_singleton] at h2
        subst h2
        exact le_refl 0
  · intro v hv2
    exact add_nonneg hv2 hv

theorem allNonneg_foldl_mergeStep {d : JDict} {l : List (String × Int)}
    (hl : ∀ kv ∈ l, 0 ≤ kv.2) (hd : ∀ kv ∈ d, 0 ≤ coerceMerge kv.2) :
    ∀ kv ∈ d.foldl mergeStep l, 0 ≤ kv.2 := by
  induction d generalizing l with
  | nil => exact hl
  | cons kv0 rest ih =>
    rw [List.foldl_cons]
    exact ih (allNonneg_mergeStep hl kv0 (hd kv0 (List.mem_cons_self kv0 rest)))
      (fun kv2 h2 => hd kv2 (List.mem_cons_of_mem kv0 h2))

theorem allNonneg_merge_json_dicts {dicts : List (Option JDict)}
    (h : ∀ od ∈ dicts, ∀ l, od = some l → ∀ kv ∈ l, 0 ≤ coerceMerge kv.2) :
    ∀ kv ∈ merge_json_dicts dicts, 0 ≤ kv.2 := by
  rw [merge_json_dicts]
  have hgen : ∀ (acc : List (String × Int)), (∀ kv ∈ acc, 0 ≤ kv.2) →
      ∀ kv ∈ dicts.foldl mergeCellStep acc, 0 ≤ kv.2 := by
    induction dicts with
    | nil => intro acc hacc; exact hacc
    | cons od rest ih =>
      intro acc hacc
      rw [List.foldl_cons]
      have hrest := fun od2 h2 => h od2 (List.mem_cons_of_mem od h2)
      apply ih hrest
      cases od with
      | none => exact hacc
      | some dd =>
        cases dd with
        | nil => exact hacc
        | cons kv0 drest =>
          rw [mergeCellStep_some_cons]
          exact allNonneg_foldl_mergeStep hacc
            (h (some (kv0 :: drest)) (List.mem_cons_self _ rest) (kv0 :: drest) rfl)
  exact hgen [] (fun kv h2 => by cases h2)

/-! ## Claims -/

/-- C10: `can_edit_sheet` returns true exactly for the role "admin";
"viewer" and every unknown role string get false, so sheet-connection
controls are exposed only to the admin role. -/
theorem C10_can_edit_sheet_iff_admin (role : String) :
    can_edit_sheet role = true ↔ role = "admin" := by
  by_cases ha : role = "admin"
  · subst ha
    simp [can_edit_sheet, has_permission, ROLE_PERMISSIONS]
  · by_cases hv : role = "viewer"
    · subst hv
      simp [can_edit_sheet, has_permission, ROLE_PERMISSIONS]
    · simp [can_edit_sheet, has_permission, ROLE_PERMISSIONS, ha, hv]

/-- C6: with a configured registration target of 0 — including a missing
or unparseable config entry, which `get_event_config` coerces to 0 — the
forecaster produces no full-period average and no required average, for
every window and series input. -/
theorem C6_zero_target_skip (sv ev : Option String) (cd : List Nat)
    (entries : List ChartPoint) (ed : Option Nat) (avg : Option ℚ)
    (s : String) (hs : pyIntOfStr s = none) :
    cfgRegistrationTarget .cNone = 0 ∧
    cfgRegistrationTarget (.cStr "") = 0 ∧
    cfgRegistrationTarget (.cStr s) = 0 ∧
    (sheetWindow 0 sv ev).average_daily = none ∧
    (spanAverage 0 (sheetWindow 0 sv ev) cd).1 = none ∧
    requiredPace 0 entries ed avg = none := by
  refine ⟨rfl, by simp [cfgRegistrationTarget], by simp [cfgRegistrationTarget, hs],
    by simp [sheetWindow], ?_, by simp [requiredPace]⟩
  cases cd with
  | nil => simp [spanAverage, sheetWindow]
  | cons d ds => simp [spanAverage, sheetWindow]

/-- C6 witness: concrete instance with an unparseable target string. -/
theorem C6_zero_target_skip_witness :
    pyIntOfStr "abc" = none ∧
    cfgRegistrationTarget (.cStr "abc") = 0 ∧
    requiredPace 0 [(some 1, 5)] (some 3) none = none := by
  have h := C6_zero_target_skip none none [] [(some 1, 5)] (some 3) none "abc"
    (by decide)
  exact ⟨by decide, h.2.2.1, h.2.2.2.2.2⟩

/-- C3: the parsing core never fails — `safe_json_loads` returns the
absent marker on every malformed or missing input (None, NaN, empty-ish
text, invalid JSON, JSON decoding to a non-object, any other value type),
and a cell on which it is absent contributes nothing to
`parse_daily_registrations`, which continues over the remaining rows;
likewise an absent entry contributes nothing to `merge_json_dicts`.  In
this embedding all three functions are total: every exception path of the
source is a caught, value-producing branch. -/
theorem C3_core_never_fails (pre post : List RawVal) (bad : RawVal)
    (hbad : safe_json_loads bad = none)
    (mpre mpost : List (Option JDict)) (v : JVal)
    (hv : ∀ kvs, v ≠ .jObj kvs) :
    safe_json_loads .rNone = none ∧
    safe_json_loads .rNaN = none ∧
    safe_json_loads .rStrEmpty = none ∧
    safe_json_loads .rStrInvalid = none ∧
    safe_json_loads .rOther = none ∧
    safe_json_loads (.rStrValid v) = none ∧
    parse_daily_registrations (pre ++ bad :: post)
      = parse_daily_registrations (pre ++ post) ∧
    merge_json_dicts (mpre ++ none :: mpost) = merge_json_dicts (mpre ++ mpost) := by
  refine ⟨rfl, rfl, rfl, rfl, rfl, ?_, ?_, ?_⟩
  · cases v with
    | jObj kvs => exact absurd rfl (hv kvs)
    | jNull => rfl
    | jBool b => rfl
    | jInt n => rfl
    | jStr s2 => rfl
    | jArr => rfl
  · rw [parse_daily_registrations, parse_daily_registrations,
      List.filter_append, List.filter_append, List.filter_cons]
    cases hna : isNa bad with
    | true => simp [hna]
    | false =>
      have hstep : ∀ acc, parseCellStep acc bad = acc := by
        intro acc
        rw [parseCellStep_eq, hbad]
      simp [hna, List.foldl_append, hstep]
  · rw [merge_json_dicts, merge_json_dicts]
    simp [List.foldl_append, mergeCellStep_none]

/-- C3 witness: a malformed cell among good ones changes nothing. -/
theorem C3_core_never_fails_witness :
    safe_json_loads (.rStrValid .jArr) = none ∧
    parse_daily_registrations [.rDict [("a", .jInt 1)], .rStrInvalid]
      = parse_daily_registrations [.rDict [("a", .jInt 1)]] := by
  have h := C3_core_never_fails [.rDict [("a", .jInt 1)]] [] .rStrInvalid rfl
    [] [] .jArr (fun kvs h => by cases h)
  refine ⟨h.2.2.2.2.2.1, ?_⟩
  have h2 := h.2.2.2.2.2.2.1
  simpa using h2

/-- C9: the key set of `merge_json_dicts` equals the union of the key sets
of the present, non-empty input dicts, and a key whose every occurrence
carries a non-numeric value still appears in the output with count 0. -/
theorem C9_merged_key_set (dicts : List (Option JDict)) (k : String) :
    ((dlookup k (merge_json_dicts dicts)).isSome ↔
      ∃ d ∈ dicts, ∃ l, d = some l ∧ l ≠ [] ∧ ∃ kv ∈ l, kv.1 = k) ∧
    ((∃ d ∈ dicts, ∃ l, d = some l ∧ ∃ kv ∈ l, kv.1 = k) →
      (∀ d ∈ dicts, ∀ l, d = some l → ∀ kv ∈ l, kv.1 = k →
        isNumericJV kv.2 = false) →
      dlookup k (merge_json_dicts dicts) = some 0) := by
  constructor
  · rw [dlookup_merge_json_dicts]
    constructor
    · intro h
      by_cases hc : dicts.any (cellHasKeyM k) = true
      · rw [List.any_eq_true] at hc
        obtain ⟨od, hod, hcell⟩ := hc
        cases od with
        | none => cases hcell
        | some l =>
          rw [cellHasKeyM, List.any_eq_true] at hcell
          obtain ⟨kv, hkv, hb⟩ := hcell
          exact ⟨some l, hod, l, rfl, List.ne_nil_of_mem hkv, kv, hkv,
            by simpa using hb⟩
      · rw [if_neg hc] at h
        cases h
    · rintro ⟨d, hd, l, rfl, hne, kv, hkv, hk1⟩
      have hc : dicts.any (cellHasKeyM k) = true :=
        List.any_eq_true.mpr ⟨some l, hd, by
          rw [cellHasKeyM]
          exact List.any_eq_true.mpr ⟨kv, hkv, by simp [hk1]⟩⟩
      rw [if_pos hc]
      rfl
  · rintro ⟨d, hd, l, rfl, kv, hkv, hk1⟩ hall
    rw [dlookup_merge_json_dicts]
    have hc : dicts.any (cellHasKeyM k) = true :=
      List.any_eq_true.mpr ⟨some l, hd, by
        rw [cellHasKeyM]
        exact List.any_eq_true.mpr ⟨kv, hkv, by simp [hk1]⟩⟩
    rw [if_pos hc]
    have hz : (dicts.map (cellTotalM k)).sum = 0 := by
      apply List.sum_eq_zero
      intro x hx
      rw [List.mem_map] at hx
      obtain ⟨od, hod, rfl⟩ := hx
      cases od with
      | none => rfl
      | some l2 =>
        show dictTotalM k l2 = 0
        apply List.sum_eq_zero
        intro y hy
        rw [List.mem_map] at hy
        obtain ⟨kv2, hkv2, rfl⟩ := hy
        rw [List.mem_filter] at hkv2
        obtain ⟨hkvl, hb⟩ := hkv2
        have hk2 : kv2.1 = k := by simpa using hb
        have hnum := hall (some l2) hod l2 rfl kv2 hkvl hk2
        cases hval : kv2.2 with
        | jInt n => rw [hval] at hnum; cases hnum
        | jBool b => rw [hval] at hnum; cases hnum
        | jNull => rfl
        | jStr s2 => rfl
        | jArr => rfl
        | jObj kvs => rfl
    rw [hz]

/-- C9 witness: a key present only with a string value still appears,
with count 0. -/
theorem C9_merged_key_set_witness :
    dlookup "G" (merge_json_dicts [some [("G", .jStr "x")], none]) = some 0 := by
  apply (C9_merged_key_set [some [("G", .jStr "x")], none] "G").2
  · exact ⟨some [("G", .jStr "x")], by simp, [("G", .jStr "x")], rfl,
      ("G", .jStr "x"), by simp, rfl⟩
  · intro d hd l hdl kv hkv hk1
    rw [List.mem_cons] at hd
    rcases hd with rfl | hd
    · injection hdl with hdl
      subst hdl
      rw [List.mem_singleton] at hkv
      subst hkv
      rfl
    · rw [List.mem_singleton] at hd
      subst hd
      cases hdl

/-- C7: merge commutativity — permuting the list of parsed optional dicts
leaves `merge_json_dicts` with the same map (equal lookup at every key),
and permuting the raw daily-registration cells leaves
`parse_daily_registrations` with the same date-to-count map. -/
theorem C7_merge_commutativity (dicts dicts2 : List (Option JDict))
    (hperm : dicts.Perm dicts2)
    (series series2 : List RawVal) (hperm2 : series.Perm series2) :
    (∀ k, dlookup k (merge_json_dicts dicts)
        = dlookup k (merge_json_dicts dicts2)) ∧
    (∀ k, dlookup k (parse_daily_registrations series)
        = dlookup k (parse_daily_registrations series2)) := by
  constructor
  · intro k
    rw [dlookup_merge_json_dicts, dlookup_merge_json_dicts,
      any_eq_of_perm hperm (cellHasKeyM k), (hperm.map (cellTotalM k)).sum_eq]
  · intro k
    rw [dlookup_parse_daily, dlookup_parse_daily,
      any_eq_of_perm hperm2 (cellHasKeyP k), (hperm2.map (cellTotalP k)).sum_eq]

/-- C7 witness: a concrete swap of two rows. -/
theorem C7_merge_commutativity_witness :
    dlookup "a" (merge_json_dicts
        [some [("a", .jInt 2), ("b", .jInt 3)], some [("a", .jInt 1)]])
      = dlookup "a" (merge_json_dicts
        [some [("a", .jInt 1)], some [("a", .jInt 2), ("b", .jInt 3)]]) ∧
    dlookup "b" (parse_daily_registrations
        [.rDict [("b", .jInt 7)], .rStrInvalid])
      = dlookup "b" (parse_daily_registrations
        [.rStrInvalid, .rDict [("b", .jInt 7)]]) := by
  have h := C7_merge_commutativity
    [some [("a", .jInt 2), ("b", .jInt 3)], some [("a", .jInt 1)]]
    [some [("a", .jInt 1)], some [("a", .jInt 2), ("b", .jInt 3)]]
    (List.Perm.swap _ _ _)
    [.rDict [("b", .jInt 7)], .rStrInvalid]
    [.rStrInvalid, .rDict [("b", .jInt 7)]]
    (List.Perm.swap _ _ _)
  exact ⟨h.1 "a", h.2 "b"⟩

/-- C2 counterexample: the two pipelines disagree.  On the cell
{"2026-01-01": "3"} `parse_daily_registrations` coerces the numeric string
via int() and records 3, while `safe_json_loads` followed by
`merge_json_dicts` treats the string as non-numeric and records 0; on the
cell {"d": "x"} the parse pipeline drops the key entirely while the merge
pipeline keeps it with 0. -/
theorem C2_counterexample :
    parse_daily_registrations [.rDict [("2026-01-01", .jStr "3")]]
      = [("2026-01-01", 3)] ∧
    merge_json_dicts ([RawVal.rDict [("2026-01-01", .jStr "3")]].map safe_json_loads)
      = [("2026-01-01", 0)] ∧
    parse_daily_registrations [.rDict [("2026-01-01", .jStr "3")]]
      ≠ merge_json_dicts
          ([RawVal.rDict [("2026-01-01", .jStr "3")]].map safe_json_loads) ∧
    parse_daily_registrations [.rDict [("d", .jStr "x")]] = [] ∧
    merge_json_dicts ([RawVal.rDict [("d", .jStr "x")]].map safe_json_loads)
      = [("d", 0)] := by
  exact ⟨by decide, by decide, by decide, by decide, by decide⟩

/-- C2 (amended): the refinement holds on integer-valued data — whenever
every value of every successfully parsed dict is an int, parsing each cell
with `safe_json_loads` and merging with `merge_json_dicts` yields exactly
the map of `parse_daily_registrations`; with non-int values (numeric
strings, or values whose int() fails) the two merges differ as the
counterexample shows. -/
theorem C2_merge_refinement_int (series : List RawVal)
    (h : ∀ v ∈ series, ∀ d, safe_json_loads v = some d →
      ∀ kv ∈ d, ∃ n : Int, kv.2 = .jInt n) :
    parse_daily_registrations series
      = merge_json_dicts (series.map safe_json_loads) := by
  rw [parse_daily_registrations, merge_json_dicts]
  exact foldl_mergeCellStep_eq_parseCellStep series [] h

/-- C2 witness: the refinement on a concrete integer-valued series. -/
theorem C2_merge_refinement_int_witness :
    parse_daily_registrations [.rDict [("a", .jInt 1)], .rNaN,
        .rStrValid (.jObj [("a", .jInt 4), ("b", .jInt 2)])]
      = merge_json_dicts ([RawVal.rDict [("a", .jInt 1)], .rNaN,
          .rStrValid (.jObj [("a", .jInt 4), ("b", .jInt 2)])].map safe_json_loads) := by
  apply C2_merge_refinement_int
  intro v hv d hd kv hkv
  rw [List.mem_cons, List.mem_cons, List.mem_singleton] at hv
  rcases hv with rfl | rfl | rfl
  · injection hd with hd
    subst hd
    rw [List.mem_singleton] at hkv
    subst hkv
    exact ⟨1, rfl⟩
  · cases hd
  · injection hd with hd
    subst hd
    rw [List.mem_cons, List.mem_singleton] at hkv
    rcases hkv with rfl | rfl
    · exact ⟨4, rfl⟩
    · exact ⟨2, rfl⟩

/-- C1: required pace to date — for a positive target, a resolved end
date, and a series with at least one parseable date on or before the end
date, the forecaster computes total-so-far as the sum of counts of the
in-range points, remaining as max(0, target − total-so-far), days-remaining
as the whole-day difference from the last in-range date to the end date;
when days-remaining > 0 the required average is remaining / days-remaining,
and when days-remaining = 0 and a full-period average exists the required
average is set exactly equal to that full-period average. -/
theorem C1_required_pace_to_date (target : Int) (entries : List ChartPoint)
    (e : Nat) (avg : Option ℚ)
    (ht : 0 < target)
    (hex : ∃ p ∈ entries, ∃ d, p.1 = some d ∧ d ≤ e) :
    (0 < (e : Int) - ((((inRangeFilter e entries).filterMap Prod.fst).foldl pymaxN 0 : Nat) : Int) →
      requiredPace target entries (some e) avg
        = some ((((pymax 0 (target - ((inRangeFilter e entries).map Prod.snd).sum)) : Int) : ℚ)
              / (((e : Int) - ((((inRangeFilter e entries).filterMap Prod.fst).foldl pymaxN 0 : Nat) : Int) : Int) : ℚ),
            ((inRangeFilter e entries).map Prod.snd).sum,
            (e : Int) - ((((inRangeFilter e entries).filterMap Prod.fst).foldl pymaxN 0 : Nat) : Int))) ∧
    ((e : Int) - ((((inRangeFilter e entries).filterMap Prod.fst).foldl pymaxN 0 : Nat) : Int) = 0 →
      ∀ a, avg = some a →
      requiredPace target entries (some e) avg
        = some (a, ((inRangeFilter e entries).map Prod.snd).sum, 0)) := by
  obtain ⟨p, hp, d0, hpd, hde⟩ := hex
  have ht' : ¬ target = 0 := by omega
  cases entries with
  | nil => cases hp
  | cons p0 rest =>
    have hmem : p ∈ inRangeFilter e (p0 :: rest) := by
      rw [inRangeFilter, List.mem_filter]
      refine ⟨hp, ?_⟩
      rw [hpd]
      simp [hde]
    have hne : (inRangeFilter e (p0 :: rest)).isEmpty = false := by
      cases hi : inRangeFilter e (p0 :: rest) with
      | nil => rw [hi] at hmem; cases hmem
      | cons a b => rfl
    have hbody : requiredPace target (p0 :: rest) (some e) avg =
        (if 0 < (e : Int) - ((((inRangeFilter e (p0 :: rest)).filterMap Prod.fst).foldl pymaxN 0 : Nat) : Int) then
          some ((((pymax 0 (target - ((inRangeFilter e (p0 :: rest)).map Prod.snd).sum)) : Int) : ℚ)
              / (((e : Int) - ((((inRangeFilter e (p0 :: rest)).filterMap Prod.fst).foldl pymaxN 0 : Nat) : Int) : Int) : ℚ),
            ((inRangeFilter e (p0 :: rest)).map Prod.snd).sum,
            (e : Int) - ((((inRangeFilter e (p0 :: rest)).filterMap Prod.fst).foldl pymaxN 0 : Nat) : Int))
        else match avg with
          | some a => some (a, ((inRangeFilter e (p0 :: rest)).map Prod.snd).sum, 0)
          | none => none) := by
      rw [requiredPace, if_neg ht']
      simp only [hne, Bool.false_eq_true, if_false]
    rw [hbody]
    constructor
    · intro hpos
      rw [if_pos hpos]
    · intro hzero a ha
      rw [if_neg (by omega), ha]

/-- C1 witness: target 4600, 2300 registrations recorded up to day 20,
end date 21 days later ⇒ required average (4600 − 2300) / 21; and the
period-ended case inherits the full-period average. -/
theorem C1_required_pace_to_date_witness :
    requiredPace 4600 [(some 10, 2000), (some 20, 300)] (some 41) none
      = some ((2300 : ℚ) / 21, 2300, 21) ∧
    requiredPace 4600 [(some 10, 2000), (some 20, 300)] (some 20) (some 100)
      = some ((100 : ℚ), 2300, 0) := by
  constructor
  · have h := (C1_required_pace_to_date 4600 [(some 10, 2000), (some 20, 300)]
      41 none (by decide) ⟨(some 10, 2000), by decide, 10, rfl, by decide⟩).1
      (by decide)
    rw [h]
    have h1 : inRangeFilter 41 [((some 10 : Option Nat), (2000 : Int)), (some 20, 300)]
        = [(some 10, 2000), (some 20, 300)] := by decide
    rw [h1]
    have h2 : List.foldl pymaxN 0 (List.filterMap Prod.fst
        [((some 10 : Option Nat), (2000 : Int)), (some 20, 300)]) = 20 := by decide
    rw [h2]
    norm_num [pymax]
  · have h := (C1_required_pace_to_date 4600 [(some 10, 2000), (some 20, 300)]
      20 (some 100) (by decide) ⟨(some 10, 2000), by decide, 10, rfl, by decide⟩).2
      (by decide) 100 rfl
    rw [h]
    have h1 : inRangeFilter 20 [((some 10 : Option Nat), (2000 : Int)), (some 20, 300)]
        = [(some 10, 2000), (some 20, 300)] := by decide
    rw [h1]
    norm_num

/-- C4: window resolution and full-period average — when both explicit
window fields parse day-first to valid dates, the inclusive day count is
(end − start) + 1 floored at 1, the end date is kept, and if the day count
exceeds 1 the full-period average is target / day count (e.g. a target of
4600 over "08-01-2026" → "22-02-2026", 46 inclusive days, gives 100/day;
day-first means "08-01-2026" is 8 January 2026). -/
theorem C4_window_resolution (target : Int) (sv ev : String) (sdt edt : Nat)
    (ht : 0 < target)
    (hs : parseDayFirstDate sv = some sdt)
    (he : parseDayFirstDate ev = some edt) :
    (sheetWindow target (some sv) (some ev)).days_from_sheet
        = some (pymax 1 ((edt : Int) - (sdt : Int) + 1)) ∧
    (sheetWindow target (some sv) (some ev)).end_dt = some edt ∧
    (1 < pymax 1 ((edt : Int) - (sdt : Int) + 1) →
      (sheetWindow target (some sv) (some ev)).average_daily
        = some ((target : ℚ) / ((pymax 1 ((edt : Int) - (sdt : Int) + 1) : Int) : ℚ))) := by
  have ht' : ¬ target = 0 := by omega
  have hbody := sheetWindow_some_some target sv ev ht'
  rw [hs, he] at hbody
  rw [hbody]
  refine ⟨rfl, rfl, fun h => ?_⟩
  show (if 1 < pymax 1 ((edt : Int) - (sdt : Int) + 1) then _ else none) = _
  rw [if_pos h]

/-- C4 witness: the spec's scenario — day-first parsing of "08-01-2026"
and "22-02-2026", 46 inclusive days, full-period average 4600/46 = 100. -/
theorem C4_window_resolution_witness :
    parseDayFirstDate "08-01-2026" = some (toDayNumber 2026 1 8) ∧
    parseDayFirstDate "22-02-2026" = some (toDayNumber 2026 2 22) ∧
    (sheetWindow 4600 (some "08-01-2026") (some "22-02-2026")).days_from_sheet
      = some 46 ∧
    (sheetWindow 4600 (some "08-01-2026") (some "22-02-2026")).end_dt
      = some (toDayNumber 2026 2 22) ∧
    (sheetWindow 4600 (some "08-01-2026") (some "22-02-2026")).average_daily
      = some 100 := by
  have h := C4_window_resolution 4600 "08-01-2026" "22-02-2026"
    (toDayNumber 2026 1 8) (toDayNumber 2026 2 22) (by decide) (by decide) (by decide)
  have hd : pymax 1 ((toDayNumber 2026 2 22 : Int) - (toDayNumber 2026 1 8 : Int) + 1)
      = 46 := by decide
  refine ⟨by decide, by decide, ?_, h.2.1, ?_⟩
  · rw [h.1, hd]
  · rw [h.2.2 (by rw [hd]; decide), hd]
    norm_num

/-- C5: degenerate-window fallback — with a positive target and a
non-empty series, when the explicit window is absent or spans at most one
day the full-period average becomes target / chart-date span (min to max,
inclusive, floored at one day), superseding the explicit window; when the
explicit window spans more than one day, its average wins. -/
theorem C5_degenerate_window_fallback (target : Int) (sv ev : Option String)
    (d : Nat) (ds : List Nat) (ht : 0 < target) :
    (((sheetWindow target sv ev).days_from_sheet = none ∨
        (sheetWindow target sv ev).days_from_sheet = some 1) →
      (spanAverage target (sheetWindow target sv ev) (d :: ds)).1
        = some ((target : ℚ) /
            ((pymax 1 (((ds.foldl pymaxN d : Nat) : Int)
               - ((ds.foldl pyminN d : Nat) : Int) + 1) : Int) : ℚ))) ∧
    (∀ n : Int, (sheetWindow target sv ev).days_from_sheet = some n → 1 < n →
      (spanAverage target (sheetWindow target sv ev) (d :: ds)).1
        = (sheetWindow target sv ev).average_daily) := by
  have ht' : ¬ target = 0 := by omega
  have hinv := sheetWindow_avg_inv target sv ev
  rw [spanAverage_cons target _ d ds ht']
  constructor
  · intro hcase
    rcases hcase with hnone | hone
    · have havg : (sheetWindow target sv ev).average_daily = none := by
        rw [hinv, hnone]
      rw [havg, hnone]
      simp
    · have havg : (sheetWindow target sv ev).average_daily = none := by
        rw [hinv, hone]
        norm_num
      rw [havg, hone]
      simp
  · intro n hn h1n
    have havg : (sheetWindow target sv ev).average_daily
        = some ((target : ℚ) / ((n : Int) : ℚ)) := by
      rw [hinv, hn]
      show (if 1 < n then some ((target : ℚ) / ((n : Int) : ℚ)) else none) = _
      rw [if_pos h1n]
    rw [havg, hn]
    have hd : ¬ n ≤ 1 := by omega
    simp [hd]

/-- C5 witness: absent explicit window, series spanning days 5..9 with
target 100 gives 100/5 = 20; an explicit 10-day window wins over the span. -/
theorem C5_degenerate_window_fallback_witness :
    (spanAverage 100 (sheetWindow 100 none none) [5, 9]).1 = some 20 ∧
    (spanAverage 100 (sheetWindow 100 (some "01-01-2026") (some "10-01-2026")) [5, 9]).1
      = (sheetWindow 100 (some "01-01-2026") (some "10-01-2026")).average_daily := by
  constructor
  · have h := (C5_degenerate_window_fallback 100 none none 5 [9] (by decide)).1
      (Or.inl (by decide))
    rw [h]
    norm_num [pymax, pymaxN, pyminN]
  · have hd : (sheetWindow 100 (some "01-01-2026") (some "10-01-2026")).days_from_sheet
        = some 10 := by decide
    exact (C5_degenerate_window_fallback 100 (some "01-01-2026") (some "10-01-2026")
      5 [9] (by decide)).2 10 hd (by decide)

/-- C8 counterexample: the delivered chart pairs relabel each empty or
whitespace key separately — the map with keys "" and " " yields two
"(Unknown)" entries (5 and 3), not one combined entry with count 8. -/
theorem C8_counterexample :
    chartEntries (merge_json_dicts [some [("", .jInt 5), (" ", .jInt 3)]])
      = [("(Unknown)", 5), ("(Unknown)", 3)] ∧
    chartEntries (merge_json_dicts [some [("", .jInt 5), (" ", .jInt 3)]])
      ≠ [("(Unknown)", 8)] ∧
    ((chartEntries (merge_json_dicts [some [("", .jInt 5), (" ", .jInt 3)]])).filter
        (fun kv => kv.1 == "(Unknown)")).length = 2 := by
  exact ⟨by decide, by decide, by decide⟩

/-- C8 (amended): every empty or all-whitespace key is relabeled to the
sentinel "(Unknown)" (one entry per raw key; combining duplicate labels is
left to the chart library), the map with keys "" and "Other" yields
exactly the entries ("(Unknown)", 5) and ("Other", 2), and every count is
non-negative whenever no source value is a negative int. -/
theorem C8_normalized_labels (s : String) (hs : pyStrip s = [])
    (dicts : List (Option JDict))
    (hpos : ∀ d ∈ dicts, ∀ l, d = some l → ∀ kv ∈ l, ∀ n : Int,
      kv.2 = .jInt n → 0 ≤ n) :
    normalize_chart_label s = "(Unknown)" ∧
    chartEntries (merge_json_dicts [some [("", .jInt 5), ("Other", .jInt 2)]])
      = [("(Unknown)", 5), ("Other", 2)] ∧
    ∀ kv ∈ chartEntries (merge_json_dicts dicts), 0 ≤ kv.2 := by
  refine ⟨by rw [normalize_chart_label, if_pos hs], by decide, ?_⟩
  intro kv hkv
  rw [chartEntries, List.mem_map] at hkv
  obtain ⟨kv0, hkv0, rfl⟩ := hkv
  show 0 ≤ kv0.2
  refine allNonneg_merge_json_dicts ?_ kv0 hkv0
  intro od hod l hol kv2 hkv2
  cases hval : kv2.2 with
  | jInt n => exact hpos od hod l hol kv2 hkv2 n hval
  | jBool b => cases b <;> simp [coerceMerge]
  | jNull => simp [coerceMerge]
  | jStr s2 => simp [coerceMerge]
  | jArr => simp [coerceMerge]
  | jObj kvs => simp [coerceMerge]

/-- C8 witness: a whitespace key and a concrete non-negative map. -/
theorem C8_normalized_labels_witness :
    normalize_chart_label "  " = "(Unknown)" ∧
    chartEntries (merge_json_dicts [some [("", .jInt 5), ("Other", .jInt 2)]])
      = [("(Unknown)", 5), ("Other", 2)] ∧
    ∀ kv ∈ chartEntries (merge_json_dicts [some [("x", .jInt 2)]]), 0 ≤ kv.2 := by
  have h := C8_normalized_labels "  " (by decide) [some [("x", .jInt 2)]] ?_
  · exact ⟨h.1, h.2.1, h.2.2⟩
  · intro d hd l hdl kv hkv n hn
    rw [List.mem_singleton] at hd
    subst hd
    injection hdl with hdl
    subst hdl
    rw [List.mem_singleton] at hkv
    subst hkv
    injection hn with hn
    omega

end Dashboards
